import Mathlib

/-!
A shallow embedding of the tailing engine of `src/tail.go` (package `tail`,
the current iteration of the repository) together with a model of the
polling watcher used by it, and proofs of the specification claims.

Modelling conventions:
* file bytes are `List Char`; machine `int64` offsets are `Int`
  (positions that are byte counts are `Nat` and cast where records carry
  them);
* wall-clock values are abstract `Nat` tokens taken from a logical clock;
* the asynchronous environment (watcher channels, ticker, reopen timer,
  cancellation, the cooloff timer) is a deterministic trace of `Event`s
  consumed at the engine's blocking points, exactly the alternatives of the
  two `select` statements of `tailFileSync`/`waitForChanges`;
* a `modified` notification means the environment appended bytes to the
  file (the polling/inotify watchers fire `Modified` on appends; truncation
  and replacement travel on their own signals);
* Go errors are carried as their message strings; none of the modelled
  filesystem operations fail (`Tell`, `Stat`, `Seek` on an open handle),
  except the initial seek, whose failure path exists in the source.
-/

set_option linter.unusedVariables false

namespace HpTail

/-- Notification kinds of an emitted record (tail.go:24-28):
`NewLineNotify`, `NewFileNotify`, `TickerNotify`. -/
inductive NotifyType
  | newLine
  | newFile
  | ticker
  deriving DecidableEq, Repr, BEq

/-- A `Line` record (tail.go:30-38). The wall-clock `Time` field is dropped;
`OpenTime` is the abstract clock token installed by `openReader`; `Err` is the
error's message string when non-nil. -/
structure Line where
  text : List Char
  offset : Int
  openTime : Nat
  err : Option String
  notifyType : NotifyType
  deriving DecidableEq, Repr, BEq

/-- `SeekInfo` (tail.go:45-49): arguments to `os.Seek`. -/
structure SeekInfo where
  offset : Int
  whence : Nat
  deriving DecidableEq, Repr

/-- `Config` (tail.go:51-69). `hasRateLimiter` stands for
`RateLimiter != nil`; the limiter's verdicts themselves are an oracle
parameter of the interpreter. Durations (`ReOpenDelay`, `NotifyInterval`)
are abstract; only `NotifyInterval != 0` is observable (tail.go:213-215). -/
structure Config where
  location : Option SeekInfo
  reOpen : Bool
  mustExist : Bool
  poll : Bool
  follow : Bool
  maxLineSize : Nat
  notifyInterval : Nat
  hasRateLimiter : Bool
  deriving DecidableEq, Repr

/-- One external occurrence observable at a blocking point of the engine:
the alternatives of the `select`s in `tailFileSync` (tail.go:265-269,
310-314) and `waitForChanges` (tail.go:330-375). `modified` carries the
bytes the environment appended; `truncated`/`reopenTimer` carry the content
of the file found by `reopen`. -/
inductive Event
  | tick
  | modified (extra : List Char)
  | deleted
  | truncated (newContent : List Char)
  | reopenTimer (newContent : List Char)
  | sleepOver
  | dying
  deriving DecidableEq, Repr

/-- Terminal outcome of the `tailFileSync` goroutine, as observed by
`Wait()` on the tomb: `finished` is a plain `return` (no `Kill`, so
`Wait() = nil`, a non-error stop); `killed` is `Kill(err)`/`Killf`. -/
inductive Outcome
  | finished
  | killed (msg : String)
  deriving DecidableEq, Repr

/-- Control position inside `tailFileSync`: top of the read loop
(tail.go:245), the cooloff sleep (tail.go:265-269), the `waitForChanges`
select loop (tail.go:330), or terminated. -/
inductive Mode
  | read
  | cooloff
  | wait
  | done (o : Outcome)
  deriving DecidableEq, Repr

/-- Engine state. `pos` is `Tell()` (tail.go:140-153): the file position
minus the reader's buffered bytes, i.e. the count of consumed bytes.
`pours` counts calls to `RateLimiter.Pour` (tail.go:419). `armed` records
that `reOpenNotify` holds a pending `time.After` (tail.go:345); the initial
never-firing channel (tail.go:211) is `armed = false`. `changesActive` is
`tail.changes != nil` (tail.go:322-328, 348, 362). -/
structure EState where
  content : List Char
  pos : Nat
  pours : Nat
  armed : Bool
  changesActive : Bool
  openTime : Nat
  clock : Nat
  events : List Event
  mode : Mode
  deriving DecidableEq, Repr

/-- `readLine` (tail.go:193-205): `bufio.Reader.ReadBytes('\n')` applied to
the bytes past the current position. `ReadBytes` accumulates fragments
across internal buffer refills (it handles `ErrBufferFull` itself), so it
returns the full data up to and including the delimiter no matter how small
the reader's buffer is — in particular the `MaxLineSize+2`-byte buffer of
`openReader` (tail.go:378-384) never causes a line to be cut. Returns the
bytes read paired with the end-of-file flag (`io.EOF` is returned together
with the data read before it, tail.go:196-199). -/
def readLine : List Char → List Char × Bool
  | [] => ([], true)
  | c :: cs =>
    if c = '\n' then ([c], false)
    else
      let r := readLine cs
      (c :: r.1, r.2)

/-- The cooloff warning message (tail.go:261-263). -/
def cooloffMsg : String :=
  "Too much log activity; waiting a second before resuming tailing"

/-- `openReader` (tail.go:378-391): rebuild the buffered reader and refresh
`openTime` from the file's stat (modelled as a fresh clock token). -/
def openReader (s : EState) : EState :=
  { s with openTime := s.clock, clock := s.clock + 1 }

/-- The non-blocking `Dying` check at the bottom of the read loop
(tail.go:310-314). `Dying` is level-triggered (it fires once `Kill` was
called); the embedding represents a pending cancellation by a `dying`
trace event consumed at the blocking selects (`waitForChanges`, the
cooloff sleep), and models the runs in which the non-blocking poll finds
no pending cancellation, so the loop continues in READ. -/
def checkDying (s : EState) : EState :=
  { s with mode := Mode.read }

/-- One iteration of the read loop of `tailFileSync` (tail.go:245-315),
from the top-of-loop `Tell` to the bottom `Dying` check. `accept n` is the
verdict of the `n`-th `RateLimiter.Pour` (tail.go:418-425). -/
def readStep (cfg : Config) (accept : Nat → Bool) (s : EState) : EState × List Line :=
  -- tail.go:247: offset, _ := tail.Tell()
  let offset := s.pos
  -- tail.go:253: line, err := tail.readLine()
  let r := readLine (s.content.drop s.pos)
  let line := r.1
  if r.2 = false then
    -- err == nil (tail.go:256-275); sendLine (tail.go:409-428) emits the
    -- record at the post-read offset, then pours one token when a limiter
    -- is configured
    let newPos := s.pos + line.length
    let rec1 : Line :=
      { text := line, offset := (newPos : Int), openTime := s.openTime,
        err := none, notifyType := NotifyType.newLine }
    let s1 := { s with pos := newPos,
                       pours := if cfg.hasRateLimiter then s.pours + 1 else s.pours }
    if cfg.hasRateLimiter && !(accept s.pours) then
      -- rate limit reached (tail.go:257-264): emit the synthetic warning
      -- record carrying the pre-read offset and a non-nil error, then sleep
      let warn : Line :=
        { text := cooloffMsg.data, offset := (offset : Int), openTime := s.openTime,
          err := some cooloffMsg, notifyType := NotifyType.newLine }
      ({ s1 with mode := Mode.cooloff }, [rec1, warn])
    else
      (checkDying s1, [rec1])
  else
    -- err == io.EOF (tail.go:276-303)
    if cfg.follow = false then
      if line.isEmpty then
        -- tail.go:281: return; the goroutine ends without Kill
        ({ s with mode := Mode.done Outcome.finished }, [])
      else
        -- tail.go:278-280: emit the trailing partial line once (sendLine)
        let newPos := s.pos + line.length
        ({ s with pos := newPos,
                  pours := if cfg.hasRateLimiter then s.pours + 1 else s.pours,
                  mode := Mode.done Outcome.finished },
         [{ text := line, offset := (newPos : Int), openTime := s.openTime,
            err := none, notifyType := NotifyType.newLine }])
    else
      -- tail.go:284-292: re-seek to the start of the partial line (the
      -- top-of-loop offset), so it is re-read whole later; then enter
      -- waitForChanges, creating ChangeEvents when none is active
      -- (tail.go:321-328)
      let s1 := if line.isEmpty then s else { s with pos := offset }
      ({ s1 with changesActive := true, mode := Mode.wait }, [])

/-- The cooloff pause (tail.go:265-274): `select` between the one-second
timer and `Dying`; on cancellation return (no Kill); on wake-up `seekEnd`
(tail.go:270, 393-395) discards the unread backlog by seeking to
end-of-file and resetting the reader, then the loop bottom runs. -/
def cooloffStep (s : EState) : EState × List Line :=
  match s.events with
  | [] => (s, [])
  | Event.dying :: rest =>
    ({ s with events := rest, mode := Mode.done Outcome.finished }, [])
  | _ :: rest =>
    (checkDying { s with events := rest, pos := s.content.length }, [])

/-- One `select` iteration of `waitForChanges` (tail.go:330-375), fused
with the bottom `Dying` check of the read loop on the paths that return
nil. -/
def waitForChangesStep (cfg : Config) (s : EState) : EState × List Line :=
  match s.events with
  | [] => (s, [])
  | e :: rest =>
    let s0 := { s with events := rest }
    match e with
    | Event.tick =>
      -- tail.go:333-339: heartbeat record at the current offset; only
      -- realizable when NotifyInterval is set — the zero ticker's channel
      -- never fires (tail.go:212-215)
      if cfg.notifyInterval ≠ 0 then
        ({ s0 with mode := Mode.wait },
         [{ text := [], offset := (s0.pos : Int), openTime := s0.openTime,
            err := none, notifyType := NotifyType.ticker }])
      else ({ s0 with mode := Mode.wait }, [])
    | Event.modified extra =>
      -- tail.go:340-341: new data arrived; the environment appended bytes
      (checkDying { s0 with content := s0.content ++ extra }, [])
    | Event.deleted =>
      if cfg.reOpen then
        -- tail.go:343-346: arm the reopen-delay timer and keep waiting
        ({ s0 with armed := true, mode := Mode.wait }, [])
      else
        -- tail.go:347-350: ErrStop; tailFileSync returns without Kill
        ({ s0 with changesActive := false, mode := Mode.done Outcome.finished }, [])
    | Event.truncated c =>
      -- tail.go:352-360: always reopen truncated files, with no seek, so
      -- reading resumes at offset 0 of the truncated content; ReOpen is
      -- not consulted
      (checkDying (openReader { s0 with content := c, pos := 0 }), [])
    | Event.reopenTimer c =>
      if s0.armed then
        -- tail.go:361-370: drop the stale ChangeSet, reopen, rebuild the
        -- reader; the fresh handle reads from offset 0
        (checkDying (openReader
          { s0 with changesActive := false, armed := false, content := c, pos := 0 }), [])
      else ({ s0 with mode := Mode.wait }, [])
    | Event.dying =>
      -- tail.go:371-372: ErrStop; return without Kill
      ({ s0 with mode := Mode.done Outcome.finished }, [])
    | Event.sleepOver => ({ s0 with mode := Mode.wait }, [])

/-- One transition of the engine. -/
def step (cfg : Config) (accept : Nat → Bool) (s : EState) : EState × List Line :=
  match s.mode with
  | Mode.done _ => (s, [])
  | Mode.read => readStep cfg accept s
  | Mode.cooloff => cooloffStep s
  | Mode.wait => waitForChangesStep cfg s

/-- Run `fuel` transitions; each emitted record is paired with the length
of the file content right after the step that emitted it (the file as it
then is). -/
def runAux (cfg : Config) (accept : Nat → Bool) : Nat → EState → List (Line × Nat)
  | 0, _ => []
  | Nat.succ n, s =>
    let p := step cfg accept s
    p.2.map (fun r => (r, p.1.content.length)) ++ runAux cfg accept n p.1

/-- The records emitted by `fuel` transitions. -/
def run (cfg : Config) (accept : Nat → Bool) (fuel : Nat) (s : EState) : List Line :=
  (runAux cfg accept fuel s).map Prod.fst

/-- The state after `fuel` transitions. -/
def finalState (cfg : Config) (accept : Nat → Bool) : Nat → EState → EState
  | 0, s => s
  | Nat.succ n, s => finalState cfg accept n (step cfg accept s).1

/-- The result of the initial seek (tail.go:229-239) on the freshly opened
file: `none` is the `Killf("Seek error...")` path. `os.Seek` accepts
positions beyond end-of-file but rejects negative ones; whence 1 is
relative to the fresh handle's position 0. -/
def initSeekPos (content : List Char) (loc : Option SeekInfo) : Option Nat :=
  match loc with
  | none => some 0
  | some l =>
    if l.whence = 0 ∨ l.whence = 1 then
      (if l.offset < 0 then none else some l.offset.toNat)
    else if l.whence = 2 then
      (if (content.length : Int) + l.offset < 0 then none
       else some ((content.length : Int) + l.offset).toNat)
    else none

/-- The `offset` variable of tail.go:230-233, carried by the NewFile record
(tail.go:242): `Location.Offset`, or 0 when no location is given. -/
def initialOffset (cfg : Config) : Int :=
  match cfg.location with
  | none => 0
  | some l => l.offset

/-- `tailFileSync` (tail.go:207-316): the first open (assumed to succeed
and find `content` — with MustExist it already happened in TailFile, else
`reopen` blocks until the file exists), the initial seek, `openReader`, the
single NewFile record (tail.go:241-242), then the read loop driven for
`fuel` transitions by the event trace. Returns the emitted records and the
final engine state. -/
def tailFileSync (cfg : Config) (accept : Nat → Bool) (content : List Char)
    (events : List Event) (fuel : Nat) : List Line × EState :=
  match initSeekPos content cfg.location with
  | none =>
    -- tail.go:235-238: Killf("Seek error on ..."); nothing was emitted
    ([], { content := content, pos := 0, pours := 0, armed := false,
           changesActive := false, openTime := 0, clock := 0, events := events,
           mode := Mode.done (Outcome.killed "Seek error") })
  | some p =>
    let s0 : EState :=
      { content := content, pos := p, pours := 0, armed := false,
        changesActive := false, openTime := 0, clock := 1, events := events,
        mode := Mode.read }
    let nf : Line :=
      { text := [], offset := initialOffset cfg, openTime := 0,
        err := none, notifyType := NotifyType.newFile }
    (nf :: run cfg accept fuel s0, finalState cfg accept fuel s0)

/-- Outcome of `TailFile` (tail.go:100-138). `fatalAbort` is
`util.Fatal(...)` (tail.go:101-103): the util package (not under src) logs
and terminates the process — it does not return, so neither an error value
nor a handle is produced; `errorReturn` is `return nil, err` (tail.go:122,
131) before any goroutine is spawned; `started` is `return t, nil` after
`go t.tailFileSync()` (tail.go:135-137). -/
inductive TailFileOutcome
  | fatalAbort (msg : String)
  | errorReturn (msg : String)
  | started
  deriving DecidableEq, Repr

/-- `TailFile` (tail.go:100-138) on a path whose file exists iff
`fileExists`. The watcher construction (tail.go:116-125) is assumed to
succeed. -/
def TailFile (cfg : Config) (fileExists : Bool) : TailFileOutcome :=
  if cfg.reOpen && !cfg.follow then
    TailFileOutcome.fatalAbort "cannot set ReOpen without Follow."
  else if cfg.mustExist && !fileExists then
    TailFileOutcome.errorReturn "open: no such file or directory"
  else
    TailFileOutcome.started

/-- Whether `TailFile` returned an error value to its caller. -/
def TailFileOutcome.isErrorReturn : TailFileOutcome → Bool
  | TailFileOutcome.errorReturn _ => true
  | _ => false

/-- The handle value `TailFile` hands back: only the `started` path returns
a non-nil `*Tail` (tail.go:137); both failure paths yield no usable handle
(`errorReturn` returns a nil pointer, `fatalAbort` never returns). -/
def handleOf : TailFileOutcome → Option Unit
  | TailFileOutcome.started => some ()
  | _ => none

/-- What a call to `Stop` (tail.go:156-159) does. -/
inductive StopResult
  | panicked
  | returnedNormally
  deriving DecidableEq, Repr

/-- `Stop` (tail.go:156-159) applied to the handle from `TailFile`. On the
nil handle of a failed `TailFile`, `tail.Kill(nil)` evaluates
`&tail.Tomb` on a nil `*Tail`: a Go run-time nil-pointer panic, so `Stop`
never returns. On a live handle it kills the tomb and waits. -/
def Stop : Option Unit → StopResult
  | none => StopResult.panicked
  | some _ => StopResult.returnedNormally

/-- The records the whole `TailFile` call ever emits on `t.Lines`: the
goroutine's output when started, nothing on either failure path (no
goroutine runs, and the failure paths return before anything can send on
the channel). -/
def TailFileEmits (cfg : Config) (fileExists : Bool) (accept : Nat → Bool)
    (content : List Char) (events : List Event) (fuel : Nat) : List Line :=
  match TailFile cfg fileExists with
  | TailFileOutcome.started => (tailFileSync cfg accept content events fuel).1
  | _ => []

/-- The texts of the NewLine data records of an output (warning records
carry a non-nil `Err` and are excluded; NewFile/Ticker records carry other
kinds). -/
def newLineTexts (out : List Line) : List (List Char) :=
  (out.filter (fun r => r.notifyType == NotifyType.newLine && r.err == none)).map Line.text

/-! ## The polling watcher's sampling task

Modelled from the spec: the `FileChanges`-based
`PollingFileWatcher.ChangeEvents` that `src/tail.go` consumes
(`tail.watcher.ChangeEvents(&tail.Tomb, st)`, tail.go:327, with the
`Modified`/`Deleted`/`Truncated` channels of tail.go:340-360) is not among
the source files — only earlier iterations with a `chan bool` interface
are (`src/unnamed/part_001`, `src/watch.go`). Its per-sample decision
procedure is therefore modelled from spec §4.2. -/

/-- One metadata sample taken by the polling task (§4.2): existence, the
stable file-identity token (device+inode), size, modification time; and
whether the consumer has drained the previously sent Modified signal (the
send is non-blocking, so an undrained signal makes this sample's Modified
coalesce into the pending one). -/
structure PollSample where
  fileExists : Bool
  ident : Nat
  size : Nat
  modTime : Nat
  drained : Bool
  deriving DecidableEq, Repr

/-- A signal on the ChangeSet: `deleted` and `truncated` are terminal,
`modified` is repeatable. -/
inductive PollSignal
  | deleted
  | truncated
  | modified
  deriving DecidableEq, Repr

/-- Modelled from the spec: the sampling task's state (§4.2) — previous
size, previous modification time, the identity token captured at subscribe
time, and whether a terminal signal has already been sent (the task
stopped). -/
structure PollState where
  origIdent : Nat
  prevSize : Nat
  prevModTime : Nat
  stopped : Bool
  deriving DecidableEq, Repr

/-- Modelled from the spec: the subscription state created by
`ChangeEvents(initialInfo)` (§4.2), capturing the identity token and size
of the initial metadata snapshot; the previous modification time starts at
the zero value. -/
def subscribePoll (ident size : Nat) : PollState :=
  { origIdent := ident, prevSize := size, prevModTime := 0, stopped := false }

/-- Modelled from the spec: one sample of the polling task, in the §4.2
decision order — (1) a not-found stat signals Deleted once and stops;
(2) a changed identity token signals Deleted once and stops; (3) a size
smaller than the previous one signals Truncated once and stops; (4) a
changed modification time signals Modified through a non-blocking send
(skipped when the consumer has not drained the previous signal). -/
def pollStep (st : PollState) (smp : PollSample) : PollState × Option PollSignal :=
  if st.stopped then (st, none)
  else if smp.fileExists = false then
    ({ st with stopped := true }, some PollSignal.deleted)
  else if smp.ident ≠ st.origIdent then
    ({ st with stopped := true }, some PollSignal.deleted)
  else if smp.size < st.prevSize then
    ({ st with stopped := true }, some PollSignal.truncated)
  else
    let st1 := { st with prevSize := smp.size }
    if smp.modTime ≠ st.prevModTime then
      ({ st1 with prevModTime := smp.modTime },
       if smp.drained then some PollSignal.modified else none)
    else (st1, none)

/-- The signals produced across a whole sample trace. -/
def pollRun : PollState → List PollSample → List PollSignal
  | _, [] => []
  | st, smp :: rest =>
    let p := pollStep st smp
    p.2.toList ++ pollRun p.1 rest

/-! ## Concrete fixtures used by witnesses and counterexamples -/

/-- A rate limiter that always accepts. -/
def acceptAll : Nat → Bool := fun _ => true

/-- A rate limiter that always rejects. -/
def acceptNone : Nat → Bool := fun _ => false

/-- A base configuration: no location, all flags off. -/
def cfgBase : Config :=
  { location := none, reOpen := false, mustExist := false, poll := false,
    follow := false, maxLineSize := 0, notifyInterval := 0, hasRateLimiter := false }

/-- Follow-mode configuration. -/
def cfgFollow : Config := { cfgBase with follow := true }

/-- Scenario-E configuration: Follow with MaxLineSize 3. -/
def cfgMax3 : Config := { cfgBase with follow := true, maxLineSize := 3 }

/-- Follow with ReOpen. -/
def cfgReOpen : Config := { cfgBase with follow := true, reOpen := true }

/-- Follow with a configured rate limiter. -/
def cfgRL : Config := { cfgBase with follow := true, hasRateLimiter := true }

/-- MustExist with Follow (the configuration of Scenario F). -/
def cfgMust : Config := { cfgBase with follow := true, mustExist := true }

/-- The invalid configuration: ReOpen without Follow. -/
def cfgBad : Config := { cfgBase with reOpen := true, follow := false }

/-- A fresh engine state in the given mode. -/
def mkState (content : List Char) (pos : Nat) (events : List Event) (mode : Mode) : EState :=
  { content := content, pos := pos, pours := 0, armed := false,
    changesActive := false, openTime := 0, clock := 1, events := events,
    mode := mode }

/-- The position invariant: the consumed offset never exceeds the file
length (holds from any fresh open, and is preserved by every transition). -/
def InvPos (s : EState) : Prop := s.pos ≤ s.content.length

/-- Every emitted record's offset points into the file as it is at
emission time (each record is paired with that file length by `runAux`). -/
def offsetsWithinFile (l : List (Line × Nat)) : Prop :=
  ∀ q ∈ l, q.1.offset ≤ (q.2 : Int)

/-- No data line is emitted split: every NewLine record with a nil error
ends with the delimiter. -/
def noSplitLines (out : List Line) : Prop :=
  ∀ r ∈ out, r.notifyType = NotifyType.newLine → r.err = none →
    ∃ pre, r.text = pre ++ ['\n']

/-- The output carries no NewFile record. -/
def noNewFileRecords (out : List Line) : Prop :=
  ∀ r ∈ out, r.notifyType ≠ NotifyType.newFile

/-- C6 fixture: a file holding an unterminated line, about to be read. -/
def s6 : EState := mkState ("he".data) 0 [] Mode.read

/-- C5 fixture: "hello\nwor" already consumed up to the partial line. -/
def s5 : EState := mkState ("hello\nwor".data) 6 [] Mode.read

/-- C3 fixture: waiting at end-of-file when the file is truncated to
"x\n". -/
def sTrunc : EState :=
  mkState ("aaa\nbbb\n".data) 8 [Event.truncated ("x\n".data)] Mode.wait

/-- C4 fixture: waiting at end-of-file when the file is deleted. -/
def sDel : EState := mkState ("a\n".data) 2 [Event.deleted] Mode.wait

/-- C4 fixture: waiting with the reopen-delay timer armed, which then
fires after the file was recreated as "new\n". -/
def sTimer : EState :=
  { mkState ("a\n".data) 2 [Event.reopenTimer ("new\n".data)] Mode.wait with
    armed := true }

/-- C8 fixture: about to read the first line while the limiter rejects. -/
def sRL : EState := mkState ("a\nb\n".data) 0 [] Mode.read

/-- C8 fixture: in the cooloff pause; the timer fires. -/
def sCoolSleep : EState := mkState ("a\nb\n".data) 2 [Event.sleepOver] Mode.cooloff

/-- C8 fixture: in the cooloff pause; a cancellation is pending. -/
def sCoolDying : EState := mkState ("a\nb\n".data) 2 [Event.dying] Mode.cooloff

/-- C9 fixture: a subscription on identity token 7, initial size 5. -/
def stPoll : PollState := subscribePoll 7 5

/-- C9 fixture: a sample finding the path gone. -/
def smpGone : PollSample :=
  { fileExists := false, ident := 0, size := 0, modTime := 0, drained := true }

/-! ## Helper lemmas -/

theorem readLine_length_le (l : List Char) : (readLine l).1.length ≤ l.length := by
  induction l with
  | nil => simp [readLine]
  | cons c cs ih =>
    by_cases hc : c = '\n'
    · simp [readLine, hc]
    · simp only [readLine, if_neg hc, List.length_cons]
      exact Nat.succ_le_succ ih

theorem readLine_ends_nl (l : List Char) (h : (readLine l).2 = false) :
    ∃ pre, (readLine l).1 = pre ++ ['\n'] := by
  induction l with
  | nil => simp [readLine] at h
  | cons c cs ih =>
    by_cases hc : c = '\n'
    · exact ⟨[], by simp [readLine, hc]⟩
    · simp only [readLine, if_neg hc] at h ⊢
      obtain ⟨pre, hp⟩ := ih h
      exact ⟨c :: pre, by simp [hp]⟩

theorem cooloffStep_snd (s : EState) : (cooloffStep s).2 = [] := by
  unfold cooloffStep
  split <;> rfl

theorem step_done (cfg : Config) (accept : Nat → Bool) (s : EState) (o : Outcome)
    (h : s.mode = Mode.done o) : step cfg accept s = (s, []) := by
  unfold step
  rw [h]

theorem run_done (cfg : Config) (accept : Nat → Bool) (o : Outcome) :
    ∀ n (s : EState), s.mode = Mode.done o → run cfg accept n s = [] := by
  intro n
  induction n with
  | zero => intro s _; rfl
  | succ n ih =>
    intro s h
    simp only [run, runAux, step_done cfg accept s o h]
    exact ih s h

theorem runAux_sound (cfg : Config) (accept : Nat → Bool)
    (Inv : EState → Prop) (P : Line → Nat → Prop)
    (hstep : ∀ s, Inv s →
      Inv (step cfg accept s).1 ∧
      ∀ r ∈ (step cfg accept s).2, P r (step cfg accept s).1.content.length) :
    ∀ n (s : EState), Inv s → ∀ q ∈ runAux cfg accept n s, P q.1 q.2 := by
  intro n
  induction n with
  | zero => intro s _ q hq; simp [runAux] at hq
  | succ n ih =>
    intro s hs q hq
    simp only [runAux, List.mem_append, List.mem_map] at hq
    rcases hq with ⟨r, hr, rfl⟩ | hq
    · exact (hstep s hs).2 r hr
    · exact ih _ (hstep s hs).1 q hq

theorem run_sound (cfg : Config) (accept : Nat → Bool) (P : Line → Prop)
    (hstep : ∀ s, ∀ r ∈ (step cfg accept s).2, P r) :
    ∀ n (s : EState), ∀ r ∈ run cfg accept n s, P r := by
  intro n s r hr
  simp only [run, List.mem_map] at hr
  obtain ⟨q, hq, rfl⟩ := hr
  exact runAux_sound cfg accept (fun _ => True) (fun r _ => P r)
    (fun s _ => ⟨trivial, fun r hr => hstep s r hr⟩) n s trivial q hq

theorem step_no_newFile (cfg : Config) (accept : Nat → Bool) (s : EState) :
    ∀ r ∈ (step cfg accept s).2, r.notifyType ≠ NotifyType.newFile := by
  obtain ⟨cnt, pos, pours, armed, chg, ot, ck, evs, mode⟩ := s
  cases mode with
  | done o => intro r hr; simp [step] at hr
  | cooloff =>
    intro r hr
    rw [show step cfg accept ⟨cnt, pos, pours, armed, chg, ot, ck, evs, Mode.cooloff⟩
        = cooloffStep ⟨cnt, pos, pours, armed, chg, ot, ck, evs, Mode.cooloff⟩ from rfl,
      cooloffStep_snd] at hr
    simp at hr
  | read =>
    intro r hr
    simp only [step, readStep] at hr
    split at hr
    · split at hr
      · simp only [List.mem_cons, List.not_mem_nil, or_false] at hr
        rcases hr with rfl | rfl <;> simp
      · simp only [List.mem_cons, List.not_mem_nil, or_false] at hr
        subst hr; simp
    · split at hr
      · split at hr
        · simp at hr
        · simp only [List.mem_cons, List.not_mem_nil, or_false] at hr
          subst hr; simp
      · simp at hr
  | wait =>
    intro r hr
    simp only [step, waitForChangesStep] at hr
    split at hr
    · simp at hr
    · split at hr <;> (try split at hr) <;> simp_all

theorem step_follow_ends_nl (cfg : Config) (accept : Nat → Bool) (hf : cfg.follow = true)
    (s : EState) :
    ∀ r ∈ (step cfg accept s).2, r.notifyType = NotifyType.newLine → r.err = none →
      ∃ pre, r.text = pre ++ ['\n'] := by
  obtain ⟨cnt, pos, pours, armed, chg, ot, ck, evs, mode⟩ := s
  cases mode with
  | done o => intro r hr; simp [step] at hr
  | cooloff =>
    intro r hr
    rw [show step cfg accept ⟨cnt, pos, pours, armed, chg, ot, ck, evs, Mode.cooloff⟩
        = cooloffStep ⟨cnt, pos, pours, armed, chg, ot, ck, evs, Mode.cooloff⟩ from rfl,
      cooloffStep_snd] at hr
    simp at hr
  | read =>
    intro r hr hk he
    simp only [step, readStep] at hr
    split at hr
    case isTrue hret =>
      split at hr
      · simp only [List.mem_cons, List.not_mem_nil, or_false] at hr
        rcases hr with rfl | rfl
        · exact readLine_ends_nl _ hret
        · simp at he
      · simp only [List.mem_cons, List.not_mem_nil, or_false] at hr
        subst hr
        exact readLine_ends_nl _ hret
    case isFalse hret =>
      split at hr
      · simp_all
      · simp at hr
  | wait =>
    intro r hr hk he
    simp only [step, waitForChangesStep] at hr
    split at hr
    · simp at hr
    · split at hr <;> (try split at hr) <;> simp_all

theorem step_offsets (cfg : Config) (accept : Nat → Bool) (s : EState) (h : InvPos s) :
    InvPos (step cfg accept s).1
    ∧ ∀ r ∈ (step cfg accept s).2, r.offset ≤ ((step cfg accept s).1.content.length : Int) := by
  obtain ⟨cnt, pos, pours, armed, chg, ot, ck, evs, mode⟩ := s
  simp only [InvPos] at h ⊢
  have hlen := readLine_length_le (cnt.drop pos)
  rw [List.length_drop] at hlen
  cases mode with
  | done o => exact ⟨h, by simp [step]⟩
  | read =>
    simp only [step, readStep, checkDying]
    split
    · split
      · refine ⟨by simp; omega, ?_⟩
        intro r hr
        simp only [List.mem_cons, List.not_mem_nil, or_false] at hr
        rcases hr with rfl | rfl <;> simp <;> omega
      · split
        · refine ⟨by simp; omega, ?_⟩
          intro r hr
          simp only [List.mem_cons, List.not_mem_nil, or_false] at hr
          subst hr; simp; omega
        · refine ⟨by simp; omega, ?_⟩
          intro r hr
          simp only [List.mem_cons, List.not_mem_nil, or_false] at hr
          subst hr; simp; omega
    · split
      · split
        · exact ⟨by simpa using h, by simp⟩
        · refine ⟨by simp; omega, ?_⟩
          intro r hr
          simp only [List.mem_cons, List.not_mem_nil, or_false] at hr
          subst hr; simp; omega
      · split <;> exact ⟨by simpa using h, by simp⟩
  | cooloff =>
    simp only [step, cooloffStep, checkDying]
    split
    · exact ⟨by simpa using h, by simp⟩
    · exact ⟨by simpa using h, by simp⟩
    · exact ⟨by simp, by simp⟩
  | wait =>
    simp only [step, waitForChangesStep, checkDying, openReader]
    split
    · exact ⟨by simpa using h, by simp⟩
    · split
      · -- tick
        split
        · refine ⟨by simpa using h, ?_⟩
          intro r hr
          simp only [List.mem_cons, List.not_mem_nil, or_false] at hr
          subst hr
          simp
          omega
        · refine ⟨by simpa using h, ?_⟩
          intro r hr; simp at hr
      · -- modified: the file grew by the appended bytes
        refine ⟨?_, by simp⟩
        simp
        omega
      · -- deleted
        split
        · exact ⟨by simpa using h, by simp⟩
        · exact ⟨by simpa using h, by simp⟩
      · -- truncated
        exact ⟨by simp, by simp⟩
      · -- reopenTimer
        split
        · exact ⟨by simp, by simp⟩
        · exact ⟨by simpa using h, by simp⟩
      · -- dying
        exact ⟨by simpa using h, by simp⟩
      · -- sleepOver
        exact ⟨by simpa using h, by simp⟩

theorem pollRun_stopped (samples : List PollSample) :
    ∀ st : PollState, st.stopped = true → pollRun st samples = [] := by
  induction samples with
  | nil => intro st _; rfl
  | cons smp rest ih =>
    intro st h
    simp only [pollRun, pollStep, h, if_pos]
    exact ih st h

theorem runAux_offsets (cfg : Config) (accept : Nat → Bool) (n : Nat) (s : EState)
    (h : InvPos s) : offsetsWithinFile (runAux cfg accept n s) :=
  runAux_sound cfg accept InvPos (fun r L => r.offset ≤ (L : Int))
    (fun s hs => step_offsets cfg accept s hs) n s h

theorem run_no_newFile (cfg : Config) (accept : Nat → Bool) (n : Nat) (s : EState) :
    noNewFileRecords (run cfg accept n s) :=
  run_sound cfg accept (fun r => r.notifyType ≠ NotifyType.newFile)
    (fun s => step_no_newFile cfg accept s) n s

theorem run_follow_no_split (cfg : Config) (accept : Nat → Bool)
    (hf : cfg.follow = true) (n : Nat) (s : EState) :
    noSplitLines (run cfg accept n s) := by
  intro r hr
  exact run_sound cfg accept
    (fun r => r.notifyType = NotifyType.newLine → r.err = none →
      ∃ pre, r.text = pre ++ ['\n'])
    (fun s => step_follow_ends_nl cfg accept hf s) n s r hr

/-! ## The claims -/

/-- C1 (code bug): with MaxLineSize=3 over "hello\nworld\n", the
`src/tail.go` engine emits the two UNSPLIT lines (delimiters included):
`MaxLineSize` only sizes the bufio buffer (tail.go:378-384), whose
`ReadBytes` reassembles long lines across refills, and `sendLine`
(tail.go:409-428) sends the whole line — contradicting its own doc comment
("splitting longer lines if necessary"), the `Config.MaxLineSize` comment,
and `TestMaxLineSize` (tail_test.go:39-50), which expect exactly
["hel","lo","wor","ld"] (the `part_004` iteration did split, via
`util.PartitionString`). -/
theorem c1_maxlinesize_lines_unsplit :
    newLineTexts (TailFileEmits cfgMax3 true acceptAll ("hello\nworld\n".data)
        [Event.dying] 10)
      = ["hello\n".data, "world\n".data]
    ∧ ["hello\n".data, "world\n".data]
      ≠ ["hel".data, "lo".data, "wor".data, "ld".data] := by
  exact ⟨by decide, by decide⟩

/-- C2 counterexample: with ReOpen set and Follow unset, `TailFile` does
not fail with a returned error — it invokes `util.Fatal`
(tail.go:101-103), which logs and terminates the process, so no error
value is returned to the caller. -/
theorem c2_reopen_without_follow_cex :
    (TailFile cfgBad true).isErrorReturn = false
    ∧ TailFile cfgBad true
        = TailFileOutcome.fatalAbort "cannot set ReOpen without Follow." := by
  exact ⟨by decide, by decide⟩

/-- C2 (amended): for every configuration with ReOpen set and Follow
unset, `TailFile` fails synchronously before any background task is
started and no engine handle is produced — but by a fatal process abort
(`util.Fatal`), not by a returned error. -/
theorem c2_reopen_without_follow_aborts (cfg : Config) (fileExists : Bool)
    (accept : Nat → Bool) (content : List Char) (events : List Event) (fuel : Nat)
    (hr : cfg.reOpen = true) (hf : cfg.follow = false) :
    TailFile cfg fileExists
      = TailFileOutcome.fatalAbort "cannot set ReOpen without Follow."
    ∧ handleOf (TailFile cfg fileExists) = none
    ∧ TailFileEmits cfg fileExists accept content events fuel = [] := by
  have h : TailFile cfg fileExists
      = TailFileOutcome.fatalAbort "cannot set ReOpen without Follow." := by
    unfold TailFile
    simp [hr, hf]
  refine ⟨h, by rw [h]; rfl, ?_⟩
  unfold TailFileEmits
  rw [h]

theorem c2_reopen_without_follow_aborts_witness :
    TailFile cfgBad true
      = TailFileOutcome.fatalAbort "cannot set ReOpen without Follow."
    ∧ handleOf (TailFile cfgBad true) = none
    ∧ TailFileEmits cfgBad true acceptAll [] [] 5 = [] :=
  c2_reopen_without_follow_aborts cfgBad true acceptAll [] [] 5 rfl rfl

/-- C3: while waiting at end-of-file, a Truncated signal makes the engine
reopen and read the truncated file from offset 0 (tail.go:352-360), with
no emission on the transition; the transition does not consult ReOpen at
all; and every record emitted from then on carries an offset into the file
as it then is — never a stale pre-truncation offset (granted the only
in-place content changes afterwards are the appends signalled by
Modified). -/
theorem c3_truncation_reopen_unconditional (cfg : Config) (accept : Nat → Bool)
    (s : EState) (c : List Char) (rest : List Event) (b : Bool) (n : Nat)
    (hm : s.mode = Mode.wait) (he : s.events = Event.truncated c :: rest) :
    (step cfg accept s).1.content = c
    ∧ (step cfg accept s).1.pos = 0
    ∧ (step cfg accept s).1.mode = Mode.read
    ∧ (step cfg accept s).2 = []
    ∧ step { cfg with reOpen := b } accept s = step cfg accept s
    ∧ offsetsWithinFile (runAux cfg accept n (step cfg accept s).1) := by
  obtain ⟨cnt, pos, pours, armed, chg, ot, ck, evs, mode⟩ := s
  dsimp only at hm he
  subst hm
  subst he
  refine ⟨rfl, rfl, rfl, rfl, rfl, ?_⟩
  apply runAux_offsets
  simp [InvPos, step, waitForChangesStep, checkDying, openReader]

theorem c3_truncation_reopen_unconditional_witness :
    (step cfgFollow acceptAll sTrunc).1.content = "x\n".data
    ∧ (step cfgFollow acceptAll sTrunc).1.pos = 0
    ∧ (step cfgFollow acceptAll sTrunc).1.mode = Mode.read
    ∧ (step cfgFollow acceptAll sTrunc).2 = []
    ∧ step { cfgFollow with reOpen := true } acceptAll sTrunc
        = step cfgFollow acceptAll sTrunc
    ∧ offsetsWithinFile (runAux cfgFollow acceptAll 6 (step cfgFollow acceptAll sTrunc).1) :=
  c3_truncation_reopen_unconditional cfgFollow acceptAll sTrunc ("x\n".data)
    [] true 6 rfl rfl

/-- C4: while waiting at end-of-file, a Deleted signal with ReOpen set
arms the reopen-delay timer and keeps waiting (tail.go:343-346); when the
armed timer later fires, the engine reopens and resumes reading from the
start of the recreated file (tail.go:361-370); with ReOpen unset the
engine terminates via ErrStop, i.e. a plain return without Kill, so the
caller's `Wait` sees the non-error stop outcome (tail.go:347-350,
296-303). -/
theorem c4_deleted_reopen_policy (cfg1 cfg2 : Config) (accept : Nat → Bool)
    (sr st2 sd : EState) (c : List Char) (restR restT restD : List Event)
    (hr1 : cfg1.reOpen = true) (hr2 : cfg2.reOpen = false)
    (hmr : sr.mode = Mode.wait) (her : sr.events = Event.deleted :: restR)
    (hmt : st2.mode = Mode.wait) (het : st2.events = Event.reopenTimer c :: restT)
    (hat : st2.armed = true)
    (hmd : sd.mode = Mode.wait) (hed : sd.events = Event.deleted :: restD) :
    step cfg1 accept sr = ({ sr with events := restR, armed := true }, [])
    ∧ ((step cfg1 accept st2).1.pos = 0
       ∧ (step cfg1 accept st2).1.content = c
       ∧ (step cfg1 accept st2).1.armed = false
       ∧ (step cfg1 accept st2).1.mode = Mode.read
       ∧ (step cfg1 accept st2).2 = [])
    ∧ step cfg2 accept sd
        = ({ sd with events := restD, changesActive := false,
                     mode := Mode.done Outcome.finished }, []) := by
  obtain ⟨cnt, pos, pours, armed, chg, ot, ck, evs, mode⟩ := sr
  obtain ⟨cnt2, pos2, pours2, armed2, chg2, ot2, ck2, evs2, mode2⟩ := st2
  obtain ⟨cnt3, pos3, pours3, armed3, chg3, ot3, ck3, evs3, mode3⟩ := sd
  dsimp only at hmr her hmt het hat hmd hed
  subst hmr; subst her; subst hmt; subst het; subst hat; subst hmd; subst hed
  refine ⟨?_, ?_, ?_⟩
  · simp [step, waitForChangesStep, hr1]
  · simp [step, waitForChangesStep, checkDying, openReader]
  · simp [step, waitForChangesStep, hr2]

theorem c4_deleted_reopen_policy_witness :
    step cfgReOpen acceptAll sDel = ({ sDel with events := [], armed := true }, [])
    ∧ ((step cfgReOpen acceptAll sTimer).1.pos = 0
       ∧ (step cfgReOpen acceptAll sTimer).1.content = "new\n".data
       ∧ (step cfgReOpen acceptAll sTimer).1.armed = false
       ∧ (step cfgReOpen acceptAll sTimer).1.mode = Mode.read
       ∧ (step cfgReOpen acceptAll sTimer).2 = [])
    ∧ step cfgFollow acceptAll sDel
        = ({ sDel with events := [], changesActive := false,
                       mode := Mode.done Outcome.finished }, []) :=
  c4_deleted_reopen_policy cfgReOpen cfgFollow acceptAll sDel sTimer sDel
    ("new\n".data) [] [] [] rfl rfl rfl rfl rfl rfl rfl rfl rfl

/-- C5: a read hitting end-of-file with Follow enabled and a non-empty
partial line seeks back to the byte offset where that partial line started
(the top-of-loop `Tell`, tail.go:247, 284-292) before waiting, emitting
nothing, so the partial line is re-read once more bytes arrive; while
following, no data line is ever emitted split (every NewLine record with a
nil error ends with the delimiter); concretely, the partial "wor" is later
emitted whole as "world\n" after an append. -/
theorem c5_partial_line_reseek (cfg : Config) (accept : Nat → Bool) (s : EState)
    (line : List Char) (n : Nat) (hf : cfg.follow = true) (hm : s.mode = Mode.read)
    (hr : readLine (s.content.drop s.pos) = (line, true)) (hne : line ≠ []) :
    (step cfg accept s).1.pos = s.pos
    ∧ (step cfg accept s).1.content = s.content
    ∧ (step cfg accept s).1.mode = Mode.wait
    ∧ (step cfg accept s).2 = []
    ∧ noSplitLines (run cfg accept n s)
    ∧ newLineTexts (tailFileSync cfgFollow acceptAll ("hello\nwor".data)
        [Event.modified ("ld\n".data), Event.dying] 12).1
      = ["hello\n".data, "world\n".data] := by
  obtain ⟨cnt, pos, pours, armed, chg, ot, ck, evs, mode⟩ := s
  dsimp only at hm hr ⊢
  subst hm
  have hne' : line.isEmpty = false := by
    cases line
    · exact absurd rfl hne
    · rfl
  refine ⟨?_, ?_, ?_, ?_, run_follow_no_split cfg accept hf n _, by decide⟩
  all_goals simp [step, readStep, hr, hf, hne']

theorem c5_partial_line_reseek_witness :
    (step cfgFollow acceptAll s5).1.pos = s5.pos
    ∧ (step cfgFollow acceptAll s5).1.content = s5.content
    ∧ (step cfgFollow acceptAll s5).1.mode = Mode.wait
    ∧ (step cfgFollow acceptAll s5).2 = []
    ∧ noSplitLines (run cfgFollow acceptAll 6 s5)
    ∧ newLineTexts (tailFileSync cfgFollow acceptAll ("hello\nwor".data)
        [Event.modified ("ld\n".data), Event.dying] 12).1
      = ["hello\n".data, "world\n".data] :=
  c5_partial_line_reseek cfgFollow acceptAll s5 ("wor".data) 6 rfl rfl
    (by decide) (by decide)

/-- C6: a read hitting end-of-file with Follow disabled emits the
non-empty trailing partial line exactly once (nothing when it is empty,
tail.go:276-282), terminates with the non-error outcome (return without
Kill), and nothing further is ever emitted. -/
theorem c6_nofollow_eof_flush (cfg : Config) (accept : Nat → Bool) (s : EState)
    (line : List Char) (fuel : Nat) (hf : cfg.follow = false)
    (hm : s.mode = Mode.read)
    (hr : readLine (s.content.drop s.pos) = (line, true)) :
    (step cfg accept s).2
      = (if line.isEmpty then [] else
          [{ text := line, offset := ((s.pos + line.length : Nat) : Int),
             openTime := s.openTime, err := none,
             notifyType := NotifyType.newLine }])
    ∧ (step cfg accept s).1.mode = Mode.done Outcome.finished
    ∧ run cfg accept fuel (step cfg accept s).1 = [] := by
  obtain ⟨cnt, pos, pours, armed, chg, ot, ck, evs, mode⟩ := s
  dsimp only at hm hr ⊢
  subst hm
  have h2 : (step cfg accept
      ⟨cnt, pos, pours, armed, chg, ot, ck, evs, Mode.read⟩).1.mode
      = Mode.done Outcome.finished := by
    by_cases he : line.isEmpty <;> simp [step, readStep, hr, hf, he]
  refine ⟨?_, h2, run_done cfg accept Outcome.finished fuel _ h2⟩
  by_cases he : line.isEmpty <;> simp [step, readStep, hr, hf, he]

theorem c6_nofollow_eof_flush_witness :
    (step cfgBase acceptAll s6).2
      = (if ("he".data).isEmpty then [] else
          [{ text := "he".data, offset := ((s6.pos + ("he".data).length : Nat) : Int),
             openTime := s6.openTime, err := none,
             notifyType := NotifyType.newLine }])
    ∧ (step cfgBase acceptAll s6).1.mode = Mode.done Outcome.finished
    ∧ run cfgBase acceptAll 5 (step cfgBase acceptAll s6).1 = [] :=
  c6_nofollow_eof_flush cfgBase acceptAll s6 ("he".data) 5 rfl rfl (by decide)

/-- C7 counterexample: calling Stop on the handle of the failed TailFile
call is not a no-op — `TailFile` returns a nil handle with the error
(tail.go:131), and `Stop` (tail.go:156-159) dereferences the nil pointer:
a run-time panic. -/
theorem c7_stop_on_failed_handle_cex :
    TailFile cfgMust false
      = TailFileOutcome.errorReturn "open: no such file or directory"
    ∧ Stop (handleOf (TailFile cfgMust false)) = StopResult.panicked := by
  exact ⟨by decide, by decide⟩

/-- C7 (amended): for a nonexistent path with MustExist=true (and a
configuration not already rejected as ReOpen-without-Follow), `TailFile`
returns a non-nil error synchronously and spawns no background task, so no
record is ever emitted on the output stream; but the returned handle is
nil, and calling Stop on it panics on a nil dereference rather than being
a no-op. -/
theorem c7_mustexist_fails_synchronously (cfg : Config) (accept : Nat → Bool)
    (content : List Char) (events : List Event) (fuel : Nat)
    (hm : cfg.mustExist = true) (hv : cfg.reOpen = false ∨ cfg.follow = true) :
    (TailFile cfg false).isErrorReturn = true
    ∧ TailFileEmits cfg false accept content events fuel = []
    ∧ Stop (handleOf (TailFile cfg false)) = StopResult.panicked := by
  have h : TailFile cfg false
      = TailFileOutcome.errorReturn "open: no such file or directory" := by
    unfold TailFile
    rcases hv with hv | hv <;> simp [hm, hv]
  refine ⟨by rw [h]; rfl, ?_, by rw [h]; rfl⟩
  unfold TailFileEmits
  rw [h]

theorem c7_mustexist_fails_synchronously_witness :
    (TailFile cfgMust false).isErrorReturn = true
    ∧ TailFileEmits cfgMust false acceptAll ("a\n".data) [] 5 = []
    ∧ Stop (handleOf (TailFile cfgMust false)) = StopResult.panicked :=
  c7_mustexist_fails_synchronously cfgMust acceptAll ("a\n".data) [] 5 rfl
    (Or.inl rfl)

/-- C8: when the configured limiter rejects the token poured after a line
emission, the step emits that line followed by exactly one synthetic
warning record carrying a non-nil error with the cooloff message (at the
pre-read offset, tail.go:257-264), and enters the cooloff pause; the pause
is cancellable (a pending cancellation ends the run as a non-error stop);
on wake-up the engine seeks to end-of-file, discarding the unread backlog,
and resumes the read loop — not a terminal error. -/
theorem c8_rate_limit_cooloff (cfg : Config) (accept : Nat → Bool)
    (s sc sd : EState) (line : List Char) (restc restd : List Event)
    (hrl : cfg.hasRateLimiter = true) (hacc : accept s.pours = false)
    (hm : s.mode = Mode.read)
    (hr : readLine (s.content.drop s.pos) = (line, false))
    (hmc : sc.mode = Mode.cooloff) (hec : sc.events = Event.sleepOver :: restc)
    (hmd : sd.mode = Mode.cooloff) (hed : sd.events = Event.dying :: restd) :
    (step cfg accept s).2
      = [{ text := line, offset := ((s.pos + line.length : Nat) : Int),
           openTime := s.openTime, err := none, notifyType := NotifyType.newLine },
         { text := cooloffMsg.data, offset := (s.pos : Int), openTime := s.openTime,
           err := some cooloffMsg, notifyType := NotifyType.newLine }]
    ∧ ((step cfg accept s).2.filter (fun r => r.err.isSome)).length = 1
    ∧ (step cfg accept s).1.mode = Mode.cooloff
    ∧ step cfg accept sc
        = ({ sc with events := restc, pos := sc.content.length,
                     mode := Mode.read }, [])
    ∧ step cfg accept sd
        = ({ sd with events := restd, mode := Mode.done Outcome.finished }, []) := by
  obtain ⟨cnt, pos, pours, armed, chg, ot, ck, evs, mode⟩ := s
  obtain ⟨cntc, posc, poursc, armedc, chgc, otc, ckc, evsc, modec⟩ := sc
  obtain ⟨cntd, posd, poursd, armedd, chgd, otd, ckd, evsd, moded⟩ := sd
  dsimp only at hacc hm hr hmc hec hmd hed ⊢
  subst hm; subst hmc; subst hec; subst hmd; subst hed
  have h1 : (step cfg accept
      ⟨cnt, pos, pours, armed, chg, ot, ck, evs, Mode.read⟩).2
      = [{ text := line, offset := ((pos + line.length : Nat) : Int),
           openTime := ot, err := none, notifyType := NotifyType.newLine },
         { text := cooloffMsg.data, offset := (pos : Int), openTime := ot,
           err := some cooloffMsg, notifyType := NotifyType.newLine }] := by
    simp [step, readStep, hr, hrl, hacc]
  refine ⟨h1, by rw [h1]; rfl, ?_, ?_, ?_⟩
  · simp [step, readStep, hr, hrl, hacc]
  · simp [step, cooloffStep, checkDying]
  · simp [step, cooloffStep]

theorem c8_rate_limit_cooloff_witness :
    (step cfgRL acceptNone sRL).2
      = [{ text := "a\n".data, offset := ((sRL.pos + ("a\n".data).length : Nat) : Int),
           openTime := sRL.openTime, err := none, notifyType := NotifyType.newLine },
         { text := cooloffMsg.data, offset := (sRL.pos : Int), openTime := sRL.openTime,
           err := some cooloffMsg, notifyType := NotifyType.newLine }]
    ∧ ((step cfgRL acceptNone sRL).2.filter (fun r => r.err.isSome)).length = 1
    ∧ (step cfgRL acceptNone sRL).1.mode = Mode.cooloff
    ∧ step cfgRL acceptNone sCoolSleep
        = ({ sCoolSleep with events := [], pos := sCoolSleep.content.length,
                             mode := Mode.read }, [])
    ∧ step cfgRL acceptNone sCoolDying
        = ({ sCoolDying with events := [], mode := Mode.done Outcome.finished }, []) :=
  c8_rate_limit_cooloff cfgRL acceptNone sRL sCoolSleep sCoolDying ("a\n".data)
    [] [] rfl rfl rfl (by decide) rfl rfl rfl rfl

/-- C9 (modelled from the spec, §4.2; the `FileChanges`-based
`PollingFileWatcher.ChangeEvents` that `src/tail.go` consumes is not among
the source files): each sample decides in order — a not-found stat signals
Deleted once and stops sampling (nothing is ever signalled after it); a
changed identity token signals Deleted once and stops; a smaller size
signals Truncated once (a signal distinct from Deleted) and stops;
otherwise a changed modification time signals Modified through a
non-blocking send, skipped (coalesced) when the consumer has not drained
the previous signal, and sampling continues. -/
theorem c9_polling_decision_order (st : PollState) (smp : PollSample)
    (samples : List PollSample) (h : st.stopped = false) :
    (smp.fileExists = false →
      pollStep st smp = ({ st with stopped := true }, some PollSignal.deleted)
      ∧ pollRun st (smp :: samples) = [PollSignal.deleted])
    ∧ (smp.fileExists = true → smp.ident ≠ st.origIdent →
      pollStep st smp = ({ st with stopped := true }, some PollSignal.deleted)
      ∧ pollRun st (smp :: samples) = [PollSignal.deleted])
    ∧ (smp.fileExists = true → smp.ident = st.origIdent → smp.size < st.prevSize →
      pollStep st smp = ({ st with stopped := true }, some PollSignal.truncated)
      ∧ pollRun st (smp :: samples) = [PollSignal.truncated])
    ∧ (smp.fileExists = true → smp.ident = st.origIdent →
        ¬ smp.size < st.prevSize → smp.modTime ≠ st.prevModTime →
      (pollStep st smp).2
          = (if smp.drained then some PollSignal.modified else none)
      ∧ (pollStep st smp).1.stopped = false
      ∧ (pollStep st smp).1.prevModTime = smp.modTime)
    ∧ PollSignal.truncated ≠ PollSignal.deleted := by
  refine ⟨?_, ?_, ?_, ?_, by decide⟩
  · intro h1
    have hs : pollStep st smp = ({ st with stopped := true }, some PollSignal.deleted) := by
      simp [pollStep, h, h1]
    refine ⟨hs, ?_⟩
    simp only [pollRun, hs]
    rw [pollRun_stopped samples _ rfl]
    rfl
  · intro h1 h2
    have hs : pollStep st smp = ({ st with stopped := true }, some PollSignal.deleted) := by
      simp [pollStep, h, h1, h2]
    refine ⟨hs, ?_⟩
    simp only [pollRun, hs]
    rw [pollRun_stopped samples _ rfl]
    rfl
  · intro h1 h2 h3
    have hs : pollStep st smp = ({ st with stopped := true }, some PollSignal.truncated) := by
      simp [pollStep, h, h1, h2, h3]
    refine ⟨hs, ?_⟩
    simp only [pollRun, hs]
    rw [pollRun_stopped samples _ rfl]
    rfl
  · intro h1 h2 h3 h4
    simp [pollStep, h, h1, h2, h3, h4]

theorem c9_polling_decision_order_witness :
    ((smpGone.fileExists = false →
      pollStep stPoll smpGone = ({ stPoll with stopped := true }, some PollSignal.deleted)
      ∧ pollRun stPoll (smpGone :: [smpGone]) = [PollSignal.deleted])
    ∧ (smpGone.fileExists = true → smpGone.ident ≠ stPoll.origIdent →
      pollStep stPoll smpGone = ({ stPoll with stopped := true }, some PollSignal.deleted)
      ∧ pollRun stPoll (smpGone :: [smpGone]) = [PollSignal.deleted])
    ∧ (smpGone.fileExists = true → smpGone.ident = stPoll.origIdent →
        smpGone.size < stPoll.prevSize →
      pollStep stPoll smpGone = ({ stPoll with stopped := true }, some PollSignal.truncated)
      ∧ pollRun stPoll (smpGone :: [smpGone]) = [PollSignal.truncated])
    ∧ (smpGone.fileExists = true → smpGone.ident = stPoll.origIdent →
        ¬ smpGone.size < stPoll.prevSize → smpGone.modTime ≠ stPoll.prevModTime →
      (pollStep stPoll smpGone).2
          = (if smpGone.drained then some PollSignal.modified else none)
      ∧ (pollStep stPoll smpGone).1.stopped = false
      ∧ (pollStep stPoll smpGone).1.prevModTime = smpGone.modTime)
    ∧ PollSignal.truncated ≠ PollSignal.deleted) :=
  c9_polling_decision_order stPoll smpGone [smpGone] rfl

/-- C10: on every successful start (the initial seek succeeded), the
output of the run is exactly one NewFile record — emitted after the first
open and initial seek and before anything else (tail.go:241-242), carrying
the configured initial offset and the open time — followed by records none
of which is a NewFile record: reopens after rotation or truncation call
`openReader` but never emit another NewFile record (tail.go:352-370), so
the run's single NewFile record precedes all NewLine records. -/
theorem c10_single_newfile_record (cfg : Config) (accept : Nat → Bool)
    (content : List Char) (events : List Event) (fuel : Nat) (p : Nat)
    (hseek : initSeekPos content cfg.location = some p) :
    (tailFileSync cfg accept content events fuel).1
      = { text := [], offset := initialOffset cfg, openTime := 0,
          err := none, notifyType := NotifyType.newFile }
        :: run cfg accept fuel (mkState content p events Mode.read)
    ∧ noNewFileRecords (run cfg accept fuel (mkState content p events Mode.read)) := by
  constructor
  · unfold tailFileSync
    rw [hseek]
    rfl
  · exact run_no_newFile cfg accept fuel _


theorem c10_single_newfile_record_witness :
    (tailFileSync cfgFollow acceptAll ("a\n".data) [Event.dying] 6).1
      = { text := [], offset := initialOffset cfgFollow, openTime := 0,
          err := none, notifyType := NotifyType.newFile }
        :: run cfgFollow acceptAll 6 (mkState ("a\n".data) 0 [Event.dying] Mode.read)
    ∧ noNewFileRecords
        (run cfgFollow acceptAll 6 (mkState ("a\n".data) 0 [Event.dying] Mode.read)) :=
  c10_single_newfile_record cfgFollow acceptAll ("a\n".data) [Event.dying] 6 0 rfl

end HpTail
